import Mathlib

/-!
Verification of the personal finance tracker (`finance_tracker.py`).

Shallow embedding: monetary amounts are modelled as exact rationals (the
Python source stores them as numbers and only ever adds and subtracts),
dates as plain day/month/year records, and Python's class hierarchy
`Transaction` / `Income` / `Expense` as a tagged variant `TxKind`.
Exceptions (`ValueError` for non-positive amounts, `NotImplementedError`
from the base class `apply`) are modelled with `Except`.
-/

/-- A calendar date as stored in a `datetime` value: only the
day/month/year fields matter to the tracker. -/
structure Date where
  day : Nat
  month : Nat
  year : Nat
deriving DecidableEq, Repr

/-- Zero-pad the decimal representation of `n` to width `w`
(models `strftime` field padding: `%m` pads to 2, `%Y` to 4). -/
def padNum (w : Nat) (n : Nat) : String :=
  let s := toString n
  String.mk (List.replicate (w - s.length) '0') ++ s

/-- `month_year_key(date)`: return the `'MM-YYYY'` string for a date,
modelling `date.strftime("%m-%Y")`. -/
def month_year_key (d : Date) : String :=
  padNum 2 d.month ++ "-" ++ padNum 4 d.year

/-- Which concrete class a transaction object belongs to: the base class
`Transaction`, or one of the subclasses `Income` / `Expense`. -/
inductive TxKind where
  | base
  | income
  | expense
deriving DecidableEq, Repr

/-- The dataclass `Transaction` (and its subclasses, distinguished by
`kind`): `amount`, `category`, `date` and an optional `description`. -/
structure Transaction where
  amount : ℚ
  category : String
  date : Date
  descr : String := ""
  kind : TxKind
deriving DecidableEq, Repr

/-- Errors the tracker can raise while adding a transaction:
`ValueError("Amount must be positive.")` from `Account.add`, and
`NotImplementedError` from the base class `Transaction.apply`. -/
inductive AddError where
  | invalidAmount
  | notImplemented
deriving DecidableEq, Repr

/-- `apply`: the polymorphic balance effect.  `Income.apply` adds the
amount to the balance, `Expense.apply` subtracts it, and the base class
`Transaction.apply` raises `NotImplementedError`. -/
def TxKind.apply (k : TxKind) (amount : ℚ) (balance : ℚ) : Except AddError ℚ :=
  match k with
  | .base => .error .notImplemented
  | .income => .ok (balance + amount)
  | .expense => .ok (balance - amount)

/-- The dataclass `Account`: a running `balance` and the ordered list of
stored `transactions`. -/
structure Account where
  balance : ℚ := 0
  transactions : List Transaction := []
deriving DecidableEq, Repr

/-- The freshly constructed account (`Account()`): balance `0`, no
transactions. -/
def Account.empty : Account := {}

/-- `Account.add(tx)`: raise `ValueError` when `tx.amount <= 0`;
otherwise run `tx.apply(self)` (which may raise `NotImplementedError`
for a base-class transaction, leaving the account untouched) and then
append `tx` to the transaction list. -/
def Account.add (a : Account) (tx : Transaction) : Except AddError Account :=
  if tx.amount ≤ 0 then
    .error .invalidAmount
  else
    match tx.kind.apply tx.amount a.balance with
    | .error e => .error e
    | .ok b => .ok { balance := b, transactions := a.transactions ++ [tx] }

/-- `Account.by_month(month_year)`: the list comprehension
`[t for t in self.transactions if month_year_key(t.date) == month_year]`. -/
def Account.by_month (a : Account) (month_year : String) : List Transaction :=
  a.transactions.filter (fun t => month_year_key t.date == month_year)

/-- Run a whole sequence of `add` calls, stopping at the first error. -/
def Account.addAll (a : Account) : List Transaction → Except AddError Account
  | [] => .ok a
  | tx :: rest => match a.add tx with
    | .error e => .error e
    | .ok a' => a'.addAll rest

/-- A Python dict `Dict[str, float]` with insertion order, as an
association list. -/
abbrev CatMap := List (String × ℚ)

/-- `d.get(k, 0)`: the value stored at `k`, defaulting to `0`. -/
def CatMap.get (d : CatMap) (k : String) : ℚ :=
  match d.find? (fun p => p.1 == k) with
  | some p => p.2
  | none => 0

/-- `d[k] = v`: update in place when the key is present (keeping its
position, as Python dicts do), otherwise append the new entry. -/
def CatMap.set : CatMap → String → ℚ → CatMap
  | [], k, v => [(k, v)]
  | p :: rest, k, v =>
    if p.1 == k then (k, v) :: rest else p :: CatMap.set rest k v

/-- The dataclass `Report`: totals, net, and the two per-category
mappings (both start empty). -/
structure Report where
  total_income : ℚ := 0
  total_expense : ℚ := 0
  net : ℚ := 0
  income_by_cat : CatMap := []
  expense_by_cat : CatMap := []
deriving DecidableEq, Repr

namespace ReportGenerator

/-- One iteration of the loop body in `ReportGenerator.monthly`:
`isinstance(tx, Income)` adds to the income total and category map,
`isinstance(tx, Expense)` symmetrically; a base-class transaction
matches neither branch and is skipped. -/
def monthlyStep (r : Report) (tx : Transaction) : Report :=
  match tx.kind with
  | .income =>
    { r with
      total_income := r.total_income + tx.amount
      income_by_cat :=
        r.income_by_cat.set tx.category (r.income_by_cat.get tx.category + tx.amount) }
  | .expense =>
    { r with
      total_expense := r.total_expense + tx.amount
      expense_by_cat :=
        r.expense_by_cat.set tx.category (r.expense_by_cat.get tx.category + tx.amount) }
  | .base => r

/-- `ReportGenerator.monthly(account, month_year)`: scan the
month-filtered transactions accumulating totals and category maps,
then set `net = total_income - total_expense`. -/
def monthly (a : Account) (month_year : String) : Report :=
  let r := (a.by_month month_year).foldl monthlyStep {}
  { r with net := r.total_income - r.total_expense }

/-- The all-time income sum computed in `print_all_time`:
`sum(t.amount for t in account.transactions if isinstance(t, Income))`. -/
def allTimeIncome (a : Account) : ℚ :=
  ((a.transactions.filter (fun t => t.kind == TxKind.income)).map Transaction.amount).sum

/-- The all-time expense sum computed in `print_all_time`:
`sum(t.amount for t in account.transactions if isinstance(t, Expense))`. -/
def allTimeExpense (a : Account) : ℚ :=
  ((a.transactions.filter (fun t => t.kind == TxKind.expense)).map Transaction.amount).sum

/-- `allTime`: the three values `print_all_time` computes and displays:
total income, total expense, and net (`income - expense`). -/
def allTime (a : Account) : ℚ × ℚ × ℚ :=
  (allTimeIncome a, allTimeExpense a, allTimeIncome a - allTimeExpense a)

end ReportGenerator

/-- The distinct month-year keys present in an account's ledger, in
first-appearance order. -/
def Account.monthKeys (a : Account) : List String :=
  (a.transactions.map (fun t => month_year_key t.date)).dedup

/-! ## Helper lemmas -/

/-- The signed income contribution of a single transaction: its amount
when it is an `Income`, `0` otherwise. -/
def txIncomeAmt (t : Transaction) : ℚ :=
  if t.kind = TxKind.income then t.amount else 0

/-- The expense contribution of a single transaction: its amount when it
is an `Expense`, `0` otherwise. -/
def txExpenseAmt (t : Transaction) : ℚ :=
  if t.kind = TxKind.expense then t.amount else 0

lemma filter_income_sum (l : List Transaction) :
    ((l.filter (fun t => t.kind == TxKind.income)).map Transaction.amount).sum
      = (l.map txIncomeAmt).sum := by
  induction l with
  | nil => simp
  | cons t l ih =>
    by_cases h : t.kind = TxKind.income <;>
      simp [List.filter_cons, h, txIncomeAmt, ih]

lemma filter_expense_sum (l : List Transaction) :
    ((l.filter (fun t => t.kind == TxKind.expense)).map Transaction.amount).sum
      = (l.map txExpenseAmt).sum := by
  induction l with
  | nil => simp
  | cons t l ih =>
    by_cases h : t.kind = TxKind.expense <;>
      simp [List.filter_cons, h, txExpenseAmt, ih]

lemma allTimeIncome_eq (a : Account) :
    ReportGenerator.allTimeIncome a = (a.transactions.map txIncomeAmt).sum :=
  filter_income_sum a.transactions

lemma allTimeExpense_eq (a : Account) :
    ReportGenerator.allTimeExpense a = (a.transactions.map txExpenseAmt).sum :=
  filter_expense_sum a.transactions

lemma add_ok_spec {a a' : Account} {tx : Transaction}
    (h : a.add tx = Except.ok a') :
    0 < tx.amount ∧ a'.transactions = a.transactions ++ [tx] ∧
      ((tx.kind = TxKind.income ∧ a'.balance = a.balance + tx.amount) ∨
        (tx.kind = TxKind.expense ∧ a'.balance = a.balance - tx.amount)) := by
  unfold Account.add at h
  by_cases hle : tx.amount ≤ 0
  · rw [if_pos hle] at h
    exact absurd h (by simp)
  · rw [if_neg hle] at h
    refine ⟨lt_of_not_ge hle, ?_⟩
    cases hk : tx.kind
    · rw [hk] at h
      simp [TxKind.apply] at h
    · rw [hk] at h
      simp only [TxKind.apply, Except.ok.injEq] at h
      subst h
      exact ⟨rfl, Or.inl ⟨rfl, rfl⟩⟩
    · rw [hk] at h
      simp only [TxKind.apply, Except.ok.injEq] at h
      subst h
      exact ⟨rfl, Or.inr ⟨rfl, rfl⟩⟩

lemma addAll_balance {txs : List Transaction} :
    ∀ {a0 a : Account}, a0.addAll txs = Except.ok a →
      a0.balance = ReportGenerator.allTimeIncome a0 - ReportGenerator.allTimeExpense a0 →
      a.balance = ReportGenerator.allTimeIncome a - ReportGenerator.allTimeExpense a := by
  induction txs with
  | nil =>
    intro a0 a h hinv
    simp [Account.addAll] at h
    subst h
    exact hinv
  | cons tx rest ih =>
    intro a0 a h hinv
    unfold Account.addAll at h
    cases hadd : a0.add tx with
    | error e => rw [hadd] at h; exact absurd h (by simp)
    | ok a1 =>
      rw [hadd] at h
      refine ih h ?_
      obtain ⟨-, htr, hbal⟩ := add_ok_spec hadd
      have h1 : ReportGenerator.allTimeIncome a1
          = ReportGenerator.allTimeIncome a0 + txIncomeAmt tx := by
        rw [allTimeIncome_eq, allTimeIncome_eq, htr]; simp
      have h2 : ReportGenerator.allTimeExpense a1
          = ReportGenerator.allTimeExpense a0 + txExpenseAmt tx := by
        rw [allTimeExpense_eq, allTimeExpense_eq, htr]; simp
      rcases hbal with ⟨hk, hb⟩ | ⟨hk, hb⟩ <;>
        rw [h1, h2, hb, hinv] <;>
        simp [txIncomeAmt, txExpenseAmt, hk] <;>
        ring

lemma monthly_foldl_income (l : List Transaction) (r : Report) :
    (l.foldl ReportGenerator.monthlyStep r).total_income
      = r.total_income + (l.map txIncomeAmt).sum := by
  induction l generalizing r with
  | nil => simp
  | cons t l ih =>
    simp only [List.foldl_cons, List.map_cons, List.sum_cons]
    rw [ih]
    cases hk : t.kind <;>
      simp [ReportGenerator.monthlyStep, hk, txIncomeAmt] <;> ring

lemma monthly_foldl_expense (l : List Transaction) (r : Report) :
    (l.foldl ReportGenerator.monthlyStep r).total_expense
      = r.total_expense + (l.map txExpenseAmt).sum := by
  induction l generalizing r with
  | nil => simp
  | cons t l ih =>
    simp only [List.foldl_cons, List.map_cons, List.sum_cons]
    rw [ih]
    cases hk : t.kind <;>
      simp [ReportGenerator.monthlyStep, hk, txExpenseAmt] <;> ring

lemma monthly_total_income (a : Account) (k : String) :
    (ReportGenerator.monthly a k).total_income
      = ((a.by_month k).map txIncomeAmt).sum := by
  simp [ReportGenerator.monthly, monthly_foldl_income]

lemma monthly_total_expense (a : Account) (k : String) :
    (ReportGenerator.monthly a k).total_expense
      = ((a.by_month k).map txExpenseAmt).sum := by
  simp [ReportGenerator.monthly, monthly_foldl_expense]

lemma monthly_net_eq (a : Account) (k : String) :
    (ReportGenerator.monthly a k).net
      = (ReportGenerator.monthly a k).total_income
        - (ReportGenerator.monthly a k).total_expense := rfl

lemma sum_filter_split {α : Type} (p : α → Bool) (f : α → ℚ) (l : List α) :
    ((l.filter p).map f).sum + ((l.filter fun t => !(p t)).map f).sum
      = (l.map f).sum := by
  induction l with
  | nil => simp
  | cons t l ih =>
    by_cases h : p t <;>
      simp [List.filter_cons, h, ← ih] <;> ring

lemma sum_map_sub {α : Type} (g h : α → ℚ) (l : List α) :
    (l.map fun k => g k - h k).sum = (l.map g).sum - (l.map h).sum := by
  induction l with
  | nil => simp
  | cons t l ih => simp [ih]; ring

lemma sum_keys_filter {α : Type} (key : α → String) (f : α → ℚ) :
    ∀ ks : List String, ks.Nodup → ∀ l : List α, (∀ t ∈ l, key t ∈ ks) →
      (ks.map fun k => ((l.filter fun t => key t == k).map f).sum).sum
        = (l.map f).sum := by
  intro ks
  induction ks with
  | nil =>
    intro _ l hcov
    have hl : l = [] := by
      cases l with
      | nil => rfl
      | cons t l => exact absurd (hcov t (by simp)) (by simp)
    subst hl
    simp
  | cons k ks ih =>
    intro hnd l hcov
    have hknotin : k ∉ ks := (List.nodup_cons.mp hnd).1
    have hndks : ks.Nodup := (List.nodup_cons.mp hnd).2
    have hcov' : ∀ t ∈ l.filter (fun t => !(key t == k)), key t ∈ ks := by
      intro t ht
      rw [List.mem_filter] at ht
      have hmem := hcov t ht.1
      have hne : key t ≠ k := by simpa using ht.2
      rcases List.mem_cons.mp hmem with h1 | h1
      · exact absurd h1 hne
      · exact h1
    have htail : ∀ k' ∈ ks,
        ((l.filter fun t => key t == k').map f).sum
          = (((l.filter fun t => !(key t == k)).filter fun t => key t == k').map f).sum := by
      intro k' hk'
      have hkk : k' ≠ k := fun he => hknotin (he ▸ hk')
      rw [List.filter_filter]
      refine congrArg List.sum (congrArg (List.map f) (List.filter_congr ?_))
      intro t _
      by_cases h : key t = k'
      · simp [h, hkk]
      · simp [h]
    simp only [List.map_cons, List.sum_cons]
    rw [List.map_congr_left htail, ih hndks _ hcov']
    exact sum_filter_split (fun t => key t == k) f l

/-! ## Concrete sample data used by witnesses and scenarios -/

def wInc : Transaction := { amount := 5, category := "a", date := ⟨1, 1, 2024⟩, kind := .income }

def wExp : Transaction := { amount := 2, category := "b", date := ⟨2, 1, 2024⟩, kind := .expense }

def wBase : Transaction := { amount := 4, category := "c", date := ⟨3, 1, 2024⟩, kind := .base }

def wZero : Transaction := { amount := 0, category := "z", date := ⟨4, 1, 2024⟩, kind := .income }

def wApr : Transaction := { amount := 7, category := "d", date := ⟨5, 4, 2024⟩, kind := .income }

def sTx1 : Transaction := { amount := 1000, category := "Salary", date := ⟨1, 3, 2024⟩, kind := .income }

def sTx2 : Transaction := { amount := 200, category := "Gift", date := ⟨15, 3, 2024⟩, kind := .income }

def sTx3 : Transaction := { amount := 300, category := "Food", date := ⟨20, 3, 2024⟩, kind := .expense }

/-! ## Claim theorems -/

/-- C1: after every successful sequence of `add` calls starting from the
empty account, the balance equals the sum of the Income amounts minus the
sum of the Expense amounts stored so far.  Every intermediate state of
such a sequence is itself the result of a successful `addAll` on a
prefix, so this states the invariant after each add. -/
theorem balance_invariant (txs : List Transaction) (a : Account)
    (h : Account.empty.addAll txs = Except.ok a) :
    a.balance = ReportGenerator.allTimeIncome a - ReportGenerator.allTimeExpense a :=
  addAll_balance h
    (by simp [Account.empty, ReportGenerator.allTimeIncome, ReportGenerator.allTimeExpense])

/-- Witness for C1 at the concrete sequence `[wInc, wExp]`. -/
theorem balance_invariant_witness :
    (⟨3, [wInc, wExp]⟩ : Account).balance
      = ReportGenerator.allTimeIncome ⟨3, [wInc, wExp]⟩
        - ReportGenerator.allTimeExpense ⟨3, [wInc, wExp]⟩ :=
  balance_invariant [wInc, wExp] ⟨3, [wInc, wExp]⟩
    (by norm_num [Account.addAll, Account.add, TxKind.apply, wInc, wExp, Account.empty])

/-- C2: `add` with a non-positive amount signals `InvalidAmount`
(`ValueError` in the source) and produces no new account state, so the
balance and the stored transactions are unchanged. -/
theorem add_nonpositive_rejected (a : Account) (tx : Transaction)
    (h : tx.amount ≤ 0) :
    a.add tx = Except.error AddError.invalidAmount := by
  unfold Account.add
  rw [if_pos h]

/-- Witness for C2 at a zero-amount transaction. -/
theorem add_nonpositive_rejected_witness :
    (⟨3, [wInc, wExp]⟩ : Account).add wZero = Except.error AddError.invalidAmount :=
  add_nonpositive_rejected ⟨3, [wInc, wExp]⟩ wZero (by norm_num [wZero])

/-- C3: the spec's worked scenario: adding Income(1000, Salary,
01-03-2024), Income(200, Gift, 15-03-2024), Expense(300, Food,
20-03-2024) from the empty account yields balance 900, and the monthly
report for `03-2024` has the stated totals and category maps (the
category maps are compared as finite maps, i.e. up to permutation of
their entries). -/
theorem scenario_march :
    ∃ a : Account,
      Account.empty.addAll [sTx1, sTx2, sTx3] = Except.ok a ∧
      a.balance = 900 ∧
      (ReportGenerator.monthly a "03-2024").total_income = 1200 ∧
      (ReportGenerator.monthly a "03-2024").total_expense = 300 ∧
      (ReportGenerator.monthly a "03-2024").net = 900 ∧
      ((ReportGenerator.monthly a "03-2024").income_by_cat).Perm
        [("Gift", (200 : ℚ)), ("Salary", 1000)] ∧
      (ReportGenerator.monthly a "03-2024").expense_by_cat = [("Food", (300 : ℚ))] := by
  have hm : ReportGenerator.monthly ⟨900, [sTx1, sTx2, sTx3]⟩ "03-2024"
      = ⟨1200, 300, 900, [("Salary", 1000), ("Gift", 200)], [("Food", 300)]⟩ := by
    have hk1 : (month_year_key ⟨1, 3, 2024⟩ == "03-2024") = true := by decide
    have hk2 : (month_year_key ⟨15, 3, 2024⟩ == "03-2024") = true := by decide
    have hk3 : (month_year_key ⟨20, 3, 2024⟩ == "03-2024") = true := by decide
    norm_num [ReportGenerator.monthly, ReportGenerator.monthlyStep, Account.by_month,
      sTx1, sTx2, sTx3, hk1, hk2, hk3, CatMap.set, CatMap.get, List.filter_cons]
    simp
  refine ⟨⟨900, [sTx1, sTx2, sTx3]⟩, ?_, rfl, ?_, ?_, ?_, ?_, ?_⟩
  · norm_num [Account.addAll, Account.add, TxKind.apply, sTx1, sTx2, sTx3, Account.empty]
  · rw [hm]
  · rw [hm]
  · rw [hm]
  · rw [hm]
    exact List.Perm.swap ("Gift", (200 : ℚ)) ("Salary", 1000) []
  · rw [hm]


/-- C4: partition consistency — summing the monthly report totals over
every distinct month-year key present in the ledger gives the all-time
totals, for income, expense and net alike. -/
theorem all_time_partition (a : Account) :
    ((a.monthKeys.map fun k => (ReportGenerator.monthly a k).total_income).sum
        = (ReportGenerator.allTime a).1)
    ∧ ((a.monthKeys.map fun k => (ReportGenerator.monthly a k).total_expense).sum
        = (ReportGenerator.allTime a).2.1)
    ∧ ((a.monthKeys.map fun k => (ReportGenerator.monthly a k).net).sum
        = (ReportGenerator.allTime a).2.2) := by
  have hnd : a.monthKeys.Nodup := List.nodup_dedup _
  have hcov : ∀ t ∈ a.transactions, month_year_key t.date ∈ a.monthKeys := by
    intro t ht
    unfold Account.monthKeys
    rw [List.mem_dedup]
    exact List.mem_map.mpr ⟨t, ht, rfl⟩
  have hparti := @sum_keys_filter Transaction (fun t => month_year_key t.date) txIncomeAmt
    a.monthKeys hnd a.transactions hcov
  have hparte := @sum_keys_filter Transaction (fun t => month_year_key t.date) txExpenseAmt
    a.monthKeys hnd a.transactions hcov
  have hinc : (a.monthKeys.map fun k => (ReportGenerator.monthly a k).total_income).sum
      = (a.transactions.map txIncomeAmt).sum := by
    refine Eq.trans (congrArg List.sum (List.map_congr_left ?_)) hparti
    intro k _
    rw [monthly_total_income]
    rfl
  have hexp : (a.monthKeys.map fun k => (ReportGenerator.monthly a k).total_expense).sum
      = (a.transactions.map txExpenseAmt).sum := by
    refine Eq.trans (congrArg List.sum (List.map_congr_left ?_)) hparte
    intro k _
    rw [monthly_total_expense]
    rfl
  refine ⟨?_, ?_, ?_⟩
  · rw [hinc, ← allTimeIncome_eq]
    rfl
  · rw [hexp, ← allTimeExpense_eq]
    rfl
  · have hnet : (a.monthKeys.map fun k => (ReportGenerator.monthly a k).net).sum
        = (a.monthKeys.map fun k => (ReportGenerator.monthly a k).total_income).sum
          - (a.monthKeys.map fun k => (ReportGenerator.monthly a k).total_expense).sum := by
      rw [← sum_map_sub]
      refine congrArg List.sum (List.map_congr_left ?_)
      intro k _
      exact monthly_net_eq a k
    rw [hnet, hinc, hexp, ← allTimeIncome_eq, ← allTimeExpense_eq]
    rfl

/-- C5: `by_month` returns exactly the order-preserving subsequence of
the stored transactions whose date formats to the requested month-year
key; it is a pure query on an immutable view of the account, and an
unmatched key yields the empty list rather than an error. -/
theorem by_month_spec (a : Account) (k : String) :
    (a.by_month k).Sublist a.transactions
      ∧ (∀ t, t ∈ a.by_month k ↔ t ∈ a.transactions ∧ month_year_key t.date = k)
      ∧ (a.by_month k = [] ↔ ∀ t ∈ a.transactions, month_year_key t.date ≠ k) := by
  refine ⟨List.filter_sublist _, ?_, ?_⟩
  · intro t
    simp [Account.by_month]
  · simp [Account.by_month, List.filter_eq_nil_iff]

/-- C6: every monthly report satisfies `net = total_income - total_expense`. -/
theorem monthly_net_spec (a : Account) (k : String) :
    (ReportGenerator.monthly a k).net
      = (ReportGenerator.monthly a k).total_income
        - (ReportGenerator.monthly a k).total_expense := rfl

/-- C7: a month-year key matching none of the ledger's transactions
yields the all-zero report with empty category maps, with no error. -/
theorem monthly_empty_report (a : Account) (k : String)
    (h : ∀ t ∈ a.transactions, month_year_key t.date ≠ k) :
    ReportGenerator.monthly a k
      = { total_income := 0, total_expense := 0, net := 0,
          income_by_cat := [], expense_by_cat := [] } := by
  have hb : a.by_month k = [] := by
    simp only [Account.by_month, List.filter_eq_nil_iff]
    intro t ht
    simpa using h t ht
  simp [ReportGenerator.monthly, hb]

/-- Witness for C7: an April-only ledger queried for March. -/
theorem monthly_empty_report_witness :
    ReportGenerator.monthly ⟨7, [wApr]⟩ "03-2024"
      = { total_income := 0, total_expense := 0, net := 0,
          income_by_cat := [], expense_by_cat := [] } :=
  monthly_empty_report ⟨7, [wApr]⟩ "03-2024" (by decide)

/-- C8: the report queries are total: for every account state and every
month-year key string, `monthly` and `allTime` return a result (they are
plain functions of the ledger, with no error outcome). -/
theorem report_queries_total (a : Account) (k : String) :
    (∃ r : Report, ReportGenerator.monthly a k = r)
      ∧ ∃ t : ℚ × ℚ × ℚ, ReportGenerator.allTime a = t :=
  ⟨⟨_, rfl⟩, ⟨_, rfl⟩⟩

/-- C9: frame condition of a successful `add`: the transaction is
appended as the new last element (all previously stored transactions and
their order untouched), and the balance moves by exactly `+amount` for
an Income and `-amount` for an Expense. -/
theorem add_frame (a a' : Account) (tx : Transaction)
    (h : a.add tx = Except.ok a') :
    a'.transactions = a.transactions ++ [tx]
      ∧ (tx.kind = TxKind.income → a'.balance = a.balance + tx.amount)
      ∧ (tx.kind = TxKind.expense → a'.balance = a.balance - tx.amount) := by
  obtain ⟨-, htr, hbal⟩ := add_ok_spec h
  refine ⟨htr, ?_, ?_⟩
  · intro hk
    rcases hbal with ⟨-, hb⟩ | ⟨hk2, -⟩
    · exact hb
    · rw [hk] at hk2
      exact absurd hk2 (by decide)
  · intro hk
    rcases hbal with ⟨hk2, -⟩ | ⟨-, hb⟩
    · rw [hk] at hk2
      exact absurd hk2 (by decide)
    · exact hb

/-- Witness for C9: adding the concrete income `wInc` to the empty account. -/
theorem add_frame_witness :
    (⟨5, [wInc]⟩ : Account).transactions = Account.empty.transactions ++ [wInc]
      ∧ (wInc.kind = TxKind.income
          → (⟨5, [wInc]⟩ : Account).balance = Account.empty.balance + wInc.amount)
      ∧ (wInc.kind = TxKind.expense
          → (⟨5, [wInc]⟩ : Account).balance = Account.empty.balance - wInc.amount) :=
  add_frame Account.empty ⟨5, [wInc]⟩ wInc
    (by norm_num [Account.add, TxKind.apply, wInc, Account.empty])

/-- C10: adding a base-class `Transaction` (neither Income nor Expense)
with a positive amount fails with the `NotImplementedError` raised by
`Transaction.apply`, producing no new account state: the balance is
untouched and the transaction is never appended. -/
theorem add_base_raises (a : Account) (tx : Transaction)
    (hk : tx.kind = TxKind.base) (hpos : 0 < tx.amount) :
    a.add tx = Except.error AddError.notImplemented := by
  unfold Account.add
  rw [if_neg (not_le.mpr hpos), hk]
  rfl

/-- Witness for C10 at the concrete base-class transaction `wBase`. -/
theorem add_base_raises_witness :
    (⟨3, [wInc, wExp]⟩ : Account).add wBase = Except.error AddError.notImplemented :=
  add_base_raises ⟨3, [wInc, wExp]⟩ wBase (by decide) (by norm_num [wBase])
